import Mathlib

/-!
Verification of the attendance / task-workflow / notification backend.

The definitions below are a shallow embedding of the JavaScript source:
  - `src/controllers/attendanceController.js` (time helpers, status rule
    engine, punch-out handler, auto punch-out cron),
  - `src/controllers/taskController.js` (task workflow actions),
  - `src/controllers/teamController.js` (notification read/delete handlers),
  - `src/services/notification.service.js` (bulk notification creation),
  - the task schema (status / progressStatus defaults).

JavaScript strings are modelled as `List Char`; JavaScript numbers that can
be `NaN` (or an `undefined` slot produced by array destructuring) are
modelled as `Option Int` with `none` standing for `NaN`/`undefined`: every
comparison against `none` is false, matching NaN comparison semantics, and
`none = some k` is false, matching `NaN === k`.  Mongo stores are modelled
as lists of records, `findOne` as `List.find?` (first match) and a `save`
of a found document as an in-place update of the first matching record.
-/

/-- Model of a JavaScript string: a list of characters. -/
abbrev JStr := List Char

/-- Model of `String.prototype.split(sep)` for a one-character separator
(the source only splits on `" "` and `":"`).  Like in JavaScript the
result is never empty: `"".split(" ") = [""]`. -/
def splitCh (c : Char) : List Char → List (List Char)
  | [] => [[]]
  | x :: xs =>
    if x = c then [] :: splitCh c xs
    else
      match splitCh c xs with
      | [] => [[x]]
      | y :: ys => (x :: y) :: ys

/-- Decimal value of a digit string. -/
def digitsVal (s : List Char) : Nat :=
  s.foldl (fun a c => 10 * a + (c.toNat - 48)) 0

/-- Model of the JavaScript `Number(...)` coercion on the strings this code
feeds it (pieces of `hh:mm:ss` time strings): `""` coerces to `0`, a string
of decimal digits to its value, anything else to `NaN` (`none`). -/
def jsNumber (s : JStr) : Option Int :=
  if s = [] then some 0
  else if s.all Char.isDigit then some (digitsVal s) else none

/-- JavaScript `x >= n` where `x` may be `NaN` (`none`): false on `NaN`. -/
def jge (x : Option Int) (n : Int) : Bool :=
  match x with
  | some v => n ≤ v
  | none => false

/-- JavaScript `x < n` where `x` may be `NaN` (`none`): false on `NaN`. -/
def jlt (x : Option Int) (n : Int) : Bool :=
  match x with
  | some v => v < n
  | none => false

/-- JavaScript `x > n` where `x` may be `NaN` (`none`): false on `NaN`. -/
def jgt (x : Option Int) (n : Int) : Bool :=
  match x with
  | some v => n < v
  | none => false

/-- Embedding of `getHoursFromTime` (attendanceController.js:61-70):
convert `"10:30:00 AM"` to a 24h hour number; `25` is the sentinel for a
missing/empty string or a string that does not split into a time part and
an AM/PM marker.  The input is `Option JStr`, `none` standing for
`null`/`undefined`; the empty string is also falsy in `if (!timeStr)`. -/
def getHoursFromTime : Option JStr → Option Int
  | none => some 25
  | some s =>
    if s = [] then some 25
    else
      let parts := splitCh ' ' s
      let time := parts.headI
      match parts.get? 1 with
      | none => some 25
      | some p =>
        if time = [] ∨ p = [] then some 25
        else
          let hours := jsNumber (splitCh ':' time).headI
          let h1 := if p = "PM".toList ∧ hours ≠ some 12
                    then hours.map (fun x => x + 12) else hours
          if p = "AM".toList ∧ h1 = some 12 then some 0 else h1

/-- Embedding of `parseTimeToDate` (attendanceController.js:73-81), reduced
to the second-of-day of the produced `Date` relative to midnight of the
fixed base day (the `Date(2000,0,1,h,m,s)` constructor is linear in its
components, so differences of two such dates only depend on
`h*3600 + m*60 + s`).  `none` is an invalid date (`NaN` component). -/
def parseTimeToDate (s : JStr) : Option Int :=
  let parts := splitCh ' ' s
  let time := parts.headI
  let period := parts.get? 1
  let nums := (splitCh ':' time).map jsNumber
  let h := (nums.get? 0).bind id
  let m := (nums.get? 1).bind id
  let sec := ((nums.get? 2).bind id).getD 0
  let h1 := if period = some "PM".toList ∧ h ≠ some 12
            then h.map (fun x => x + 12) else h
  let h2 := if period = some "AM".toList ∧ h1 = some 12 then some 0 else h1
  match h2, m with
  | some hv, some mv => some (hv * 3600 + mv * 60 + sec)
  | _, _ => none

/-- Embedding of `calculateWorkingHours` (attendanceController.js:84-95):
`"0h"` when either side is missing/empty or the difference is not
positive, otherwise `"<h>h <m>m"`.  An invalid date difference (`NaN`)
falls through the `diffMs <= 0` test and formats as `"NaNh NaNm"`. -/
def calculateWorkingHours (punchIn punchOut : Option JStr) : String :=
  match punchIn, punchOut with
  | none, _ => "0h"
  | _, none => "0h"
  | some pin, some pout =>
    if pin = [] ∨ pout = [] then "0h"
    else
      match parseTimeToDate pout, parseTimeToDate pin with
      | some a, some b =>
        let diffS := a - b
        if diffS ≤ 0 then "0h"
        else
          let total := diffS.toNat
          toString (total / 3600) ++ "h " ++ toString ((total % 3600) / 60) ++ "m"
      | _, _ => "NaNh NaNm"

/-- Embedding of `calculateStatusFromPunchIn`
(attendanceController.js:102-109). -/
def calculateStatusFromPunchIn (punchIn : Option JStr) : String :=
  let hour := getHoursFromTime punchIn
  if jge hour 10 && jlt hour 11 then "Present"
  else if jge hour 11 && jlt hour 14 then "Late"
  else if jge hour 14 && jlt hour 15 then "Half Day"
  else "Absent"

/-- Embedding of `applyPunchOutRule` (attendanceController.js:112-121):
forces `"Absent"` when `hour > 18 || (hour === 18 && minutes > 0)`,
otherwise keeps the current status.  `minutes` is element 1 of
`time.split(":").map(Number)`; a missing element (`undefined`) and `NaN`
both make `minutes > 0` false and are both modelled by `none`. -/
def applyPunchOutRule (punchOut : JStr) (currentStatus : String) : String :=
  let hour := getHoursFromTime (some punchOut)
  let time := (splitCh ' ' punchOut).headI
  let minutes := ((splitCh ':' time).get? 1).bind jsNumber
  if jgt hour 18 || (hour = some 18 && jgt minutes 0) then "Absent"
  else currentStatus

/-! ## Attendance store and operations -/

/-- Model of an attendance document (attendance schema: employeeId, name,
date, punch_in, punch_out, status, workingHours).  Nullable string fields
are `Option`; time-of-day strings use the `JStr` model. -/
structure AttendanceRecord where
  employeeId : String
  name : String
  date : String
  punch_in : Option JStr
  punch_out : Option JStr
  status : String
  workingHours : Option String
deriving DecidableEq, Repr

/-- Update the first record matched by `p` (model of saving the document
returned by `findOne`/`findOneAndUpdate`). -/
def updateFirst (p : α → Bool) (f : α → α) : List α → List α
  | [] => []
  | x :: xs => if p x then f x :: xs else x :: updateFirst p f xs

/-- Embedding of `logoutAttendance` (attendanceController.js:185-231),
the punch-out handler, with the store explicit and the current date and
time-of-day passed in for the `getISTDate`/`getISTTime` reads.  Returns
the response (created/updated record, or `(httpStatus, message)` error)
together with the store after the call.  Note the single guard
`if (!record || record.punch_out)`: a missing record and an
already-punched-out record produce the same 404 response. -/
def logoutAttendance (employeeId today : String) (punch_out : JStr)
    (store : List AttendanceRecord) :
    Except (Nat × String) AttendanceRecord × List AttendanceRecord :=
  match store.find? (fun r => r.employeeId == employeeId && r.date == today) with
  | none => (.error (404, "No active session found"), store)
  | some r =>
    if r.punch_out ≠ none then (.error (404, "No active session found"), store)
    else
      let workingHours := calculateWorkingHours r.punch_in (some punch_out)
      let finalStatus := applyPunchOutRule punch_out r.status
      let r2 := { r with punch_out := some punch_out,
                         workingHours := some workingHours,
                         status := finalStatus }
      (.ok r2,
       updateFirst (fun x => x.employeeId == employeeId && x.date == today)
         (fun _ => r2) store)

/-- The fixed cutoff written by the auto punch-out cron
(attendanceController.js:410): `"06:01:00 PM"`. -/
def autoPunchOutTime : JStr := "06:01:00 PM".toList

/-- Embedding of `autoPunchOutCron` (attendanceController.js:404-467) on
an explicit store: every record matching the query
`{ date, punch_out: null }` (note: the query does not test `punch_in`)
gets `punch_out := "06:01:00 PM"`,
`workingHours := calculateWorkingHours punch_in cutoff` and
`status := "Auto Punch Out"`; each `save` touches only the found record,
so the sweep is a pointwise update of the matching records. -/
def autoPunchOutCron (date : String) (store : List AttendanceRecord) :
    List AttendanceRecord :=
  store.map (fun r =>
    if r.date = date ∧ r.punch_out = none then
      { r with punch_out := some autoPunchOutTime,
               workingHours := some (calculateWorkingHours r.punch_in
                 (some autoPunchOutTime)),
               status := "Auto Punch Out" }
    else r)

/-! ## Task workflow -/

/-- Model of a task document, keeping the fields the workflow actions
read or write (task schema in the model file: `status` defaults to
`"Not Started"`, `progressStatus` defaults to `"Not Started"`). -/
structure TaskDoc where
  taskId : Nat
  title : String
  description : String
  assignedTo : List String
  status : String
  progressStatus : String
  notes : String
  createdBy : String
  reviewers : List String
deriving DecidableEq, Repr

/-- Model of `String.prototype.toLowerCase()` on the role strings
(ASCII), mapping `Char.toLower` over the characters. -/
def jsToLower (s : String) : String := ⟨s.data.map Char.toLower⟩

/-- Embedding of the task constructed and saved by `addTask`
(taskController.js:204-330): role gate on admin/manager, non-empty
`assignedTo` required, `reviewers = [creator] ++ additional \ {creator}`,
and `status`/`progressStatus` left to their schema defaults
`"Not Started"`. -/
def addTask (userId userRole : String) (taskId : Nat)
    (title description : String) (assignedTo : List String)
    (additionalReviewers : List String) (notes : String) :
    Except (Nat × String) TaskDoc :=
  if ¬ (jsToLower userRole = "admin" ∨ jsToLower userRole = "manager") then
    .error (403, "Not authorized to create tasks")
  else if assignedTo = [] then
    .error (400, "At least one employee must be assigned")
  else
    .ok { taskId := taskId, title := title, description := description,
          assignedTo := assignedTo, status := "Not Started",
          progressStatus := "Not Started", notes := notes,
          createdBy := userId,
          reviewers := userId :: additionalReviewers.filter (fun i => i ≠ userId) }

/-- Embedding of `acceptTask` (taskController.js:436-471).  The `findById`
result is the `Option TaskDoc` argument.  On success the handler sets
`progressStatus := "Pending"` and `status := "In Progress"`. -/
def acceptTask (userId : String) (task : Option TaskDoc) :
    Except (Nat × String) TaskDoc :=
  match task with
  | none => .error (404, "Task not found")
  | some t =>
    if ¬ t.assignedTo.any (fun a => a = userId) then
      .error (403, "You can only accept your assigned tasks")
    else if ¬ (t.status = "Not Started" ∨ t.status = "Reverted") then
      .error (400, "Task cannot be accepted in its current status")
    else
      .ok { t with progressStatus := "Pending", status := "In Progress" }

/-- Embedding of `submitTaskForReview` (taskController.js:474-510): sets
both `progressStatus` and `status` to `"In Review"`. -/
def submitTaskForReview (userId : String) (task : Option TaskDoc) :
    Except (Nat × String) TaskDoc :=
  match task with
  | none => .error (404, "Task not found")
  | some t =>
    if ¬ t.assignedTo.any (fun a => a = userId) then
      .error (403, "You can only submit your assigned tasks")
    else if t.status ≠ "In Progress" then
      .error (400, "Task must be In Progress before submission")
    else
      .ok { t with progressStatus := "In Review", status := "In Review" }

/-- Embedding of `reviewTask` (taskController.js:513-580).  Checks in
source order: role gate (`admin`/`manager` only, before any task lookup),
task found, status `"In Review"`, creator-or-reviewer, then the action.
`comment` is a string, with `""` standing for a missing/falsy comment in
`if (comment)`. -/
def reviewTask (userId userRole userName action comment : String)
    (task : Option TaskDoc) : Except (Nat × String) TaskDoc :=
  if ¬ (jsToLower userRole = "admin" ∨ jsToLower userRole = "manager") then
    .error (403, "Not authorized to review tasks")
  else
    match task with
    | none => .error (404, "Task not found")
    | some t =>
      if t.status ≠ "In Review" then
        .error (400, "Task is not currently In Review")
      else
        let isCreator := t.createdBy = userId
        let isReviewer := t.reviewers.any (fun r => r = userId)
        if ¬ isCreator ∧ ¬ isReviewer then
          .error (403, "You are not authorized to review this task")
        else if action = "approve" then
          .ok { t with progressStatus := "Completed", status := "Completed" }
        else if action = "revert" then
          let notes2 := if comment ≠ "" then
              (if t.notes ≠ "" then t.notes ++ "\n\n" else "") ++
                "Reverted by " ++ userName ++ ": " ++ comment
            else t.notes
          .ok { t with progressStatus := "Reverted", status := "Reverted",
                       notes := notes2 }
        else
          .error (400, "Invalid review action")

/-! ## Notifications -/

/-- Model of a notification document created by the bulk service. -/
structure NotifDoc where
  receiverId : String
  senderId : Option String
  title : String
  message : String
  type : String
  priority : String
  link : String
deriving DecidableEq, Repr

/-- Embedding of `notifyManyUsers` (notification.service.js:34-63).
`isValidId` models `mongoose.Types.ObjectId.isValid`, an external format
check, passed as a parameter.  Invalid ids are filtered out silently; the
call throws only when no valid id remains; otherwise `insertMany` creates
one independent document per valid id. -/
def notifyManyUsers (isValidId : String → Bool) (receiverIds : List String)
    (senderId : Option String) (title message type priority link : String) :
    Except String (List NotifDoc) :=
  let validIds := receiverIds.filter isValidId
  if validIds = [] then .error "No valid receiverIds provided"
  else
    .ok (validIds.map (fun rid =>
      { receiverId := rid, senderId := senderId, title := title,
        message := message, type := type, priority := priority, link := link }))

/-- Model of a stored notification as read by the read/delete handlers. -/
structure StoredNotif where
  id : String
  receiverId : String
  isRead : Bool
  readAt : Option Nat
  isDeleted : Bool
deriving DecidableEq, Repr

/-- Embedding of `markAsRead` (teamController.js): validity check on the
id (400 on failure), then `findOneAndUpdate` with query
`{ _id: id, receiverId, isDeleted: false }`, setting `isRead := true` and
`readAt := now`; 404 when no document matches.  Returns the updated
document and the store after the call. -/
def markAsRead (isValidId : String → Bool) (receiverId id : String)
    (now : Nat) (store : List StoredNotif) :
    Except (Nat × String) StoredNotif × List StoredNotif :=
  if ¬ isValidId id then (.error (400, "Invalid notification id"), store)
  else
    let q := fun (n : StoredNotif) =>
      n.id == id && n.receiverId == receiverId && !n.isDeleted
    match store.find? q with
    | none => (.error (404, "Notification not found"), store)
    | some n =>
      let n2 := { n with isRead := true, readAt := some now }
      (.ok n2, updateFirst q (fun _ => n2) store)

/-- Embedding of `deleteNotification` (teamController.js): the soft
delete.  `findOneAndUpdate` with query `{ _id: id, receiverId }` — note
there is no `isDeleted: false` clause and no id-validity check — sets
`isDeleted := true`; 404 when no document matches. -/
def deleteNotification (receiverId id : String)
    (store : List StoredNotif) :
    Except (Nat × String) StoredNotif × List StoredNotif :=
  let q := fun (n : StoredNotif) => n.id == id && n.receiverId == receiverId
  match store.find? q with
  | none => (.error (404, "Notification not found"), store)
  | some n =>
    let n2 := { n with isDeleted := true }
    (.ok n2, updateFirst q (fun _ => n2) store)

/-! ## Valid 12-hour clock times

`getISTTime` produces strings of the exact shape `"hh:mm:ss AM"` /
`"hh:mm:ss PM"` with two-digit fields and the 12-hour clock hour in
`01`-`12`.  `Time12` is the abstract form of such a string and `render`
produces the string, so that claims about "every valid punch time" can be
stated as claims over all `Time12` values. -/

structure Time12 where
  h : Nat
  m : Nat
  s : Nat
  pm : Bool
deriving DecidableEq, Repr

/-- The value ranges of a well-formed 12-hour clock reading. -/
def Time12.valid (t : Time12) : Prop :=
  1 ≤ t.h ∧ t.h ≤ 12 ∧ t.m < 60 ∧ t.s < 60

instance (t : Time12) : Decidable t.valid := by
  unfold Time12.valid; infer_instance

/-- Two-digit zero-padded decimal rendering (the `2-digit` option of
`toLocaleTimeString`). -/
def pad2 (n : Nat) : List Char :=
  if n < 10 then ['0', Char.ofNat (48 + n)]
  else [Char.ofNat (48 + n / 10), Char.ofNat (48 + n % 10)]

/-- The `hh:mm:ss` part of the rendered string. -/
def Time12.timePart (t : Time12) : JStr :=
  pad2 t.h ++ ':' :: (pad2 t.m ++ ':' :: pad2 t.s)

/-- The `AM`/`PM` marker. -/
def Time12.marker (t : Time12) : JStr :=
  if t.pm then "PM".toList else "AM".toList

/-- The full `"hh:mm:ss AM/PM"` string. -/
def Time12.render (t : Time12) : JStr :=
  t.timePart ++ ' ' :: t.marker

/-- The 24-hour clock hour of a 12-hour reading. -/
def Time12.to24 (t : Time12) : Nat :=
  if t.pm then (if t.h = 12 then 12 else t.h + 12)
  else (if t.h = 12 then 0 else t.h)

/-- Second of day of a 12-hour reading. -/
def Time12.secs (t : Time12) : Nat :=
  t.to24 * 3600 + t.m * 60 + t.s

/-- A shape-level failure of the `hh:mm:ss AM/PM` format, exactly as
detected by `getHoursFromTime`: splitting on a space yields an empty time
part or no second component (`!time || !period` in the source). -/
def malformedTime (s : JStr) : Prop :=
  (splitCh ' ' s).headI = [] ∨ (splitCh ' ' s).get? 1 = none ∨
    (splitCh ' ' s).get? 1 = some []

instance (s : JStr) : Decidable (malformedTime s) := by
  unfold malformedTime; infer_instance

/-- The record update performed by the auto punch-out sweep on a matched
record: `punch_out := "06:01:00 PM"`, `workingHours` recomputed from the
actual `punch_in` to that cutoff, `status := "Auto Punch Out"`. -/
def autoPunchOutUpdate (r : AttendanceRecord) : AttendanceRecord :=
  { r with punch_out := some autoPunchOutTime,
           workingHours := some (calculateWorkingHours r.punch_in
             (some autoPunchOutTime)),
           status := "Auto Punch Out" }

instance {e a : Type} [DecidableEq e] [DecidableEq a] :
    DecidableEq (Except e a)
  | .error x, .error y =>
    if h : x = y then .isTrue (by rw [h])
    else .isFalse (by intro hh; cases hh; exact h rfl)
  | .error _, .ok _ => .isFalse (by intro h; cases h)
  | .ok _, .error _ => .isFalse (by intro h; cases h)
  | .ok x, .ok y =>
    if h : x = y then .isTrue (by rw [h])
    else .isFalse (by intro hh; cases hh; exact h rfl)

/-- Returns true iff the outcome is a success. -/
def isOkE (e : Except ε α) : Bool :=
  match e with
  | .ok _ => true
  | .error _ => false

/-! ## Parsing lemmas -/

theorem splitCh_of_not_mem {c : Char} {xs : List Char} (h : c ∉ xs) :
    splitCh c xs = [xs] := by
  induction xs with
  | nil => rfl
  | cons x xs ih =>
    have hx : ¬ x = c := fun he => h (he ▸ List.mem_cons_self x xs)
    have hxs : c ∉ xs := fun hm => h (List.mem_cons_of_mem x hm)
    simp [splitCh, hx, ih hxs]

theorem splitCh_append_cons {c : Char} {xs : List Char} (ys : List Char)
    (h : c ∉ xs) : splitCh c (xs ++ c :: ys) = xs :: splitCh c ys := by
  induction xs with
  | nil => simp [splitCh]
  | cons x xs ih =>
    have hx : ¬ x = c := fun he => h (he ▸ List.mem_cons_self x xs)
    have hxs : c ∉ xs := fun hm => h (List.mem_cons_of_mem x hm)
    simp [splitCh, hx, ih hxs]

theorem pad2_ne_nil (n : Nat) : pad2 n ≠ [] := by
  unfold pad2; split <;> simp

theorem space_not_mem_pad2 : ∀ n < 100, ' ' ∉ pad2 n := by decide

theorem colon_not_mem_pad2 : ∀ n < 100, ':' ∉ pad2 n := by decide

theorem jsNumber_pad2 : ∀ n < 100, jsNumber (pad2 n) = some (n : Int) := by
  decide

theorem space_not_mem_timePart {t : Time12} (hv : t.valid) :
    ' ' ∉ t.timePart := by
  obtain ⟨h1, h2, h3, h4⟩ := hv
  intro hm
  simp only [Time12.timePart, List.mem_append, List.mem_cons] at hm
  rcases hm with hm | hm | hm | hm | hm
  · exact space_not_mem_pad2 t.h (by omega) hm
  · exact absurd hm (by decide)
  · exact space_not_mem_pad2 t.m (by omega) hm
  · exact absurd hm (by decide)
  · exact space_not_mem_pad2 t.s (by omega) hm

theorem splitCh_space_render {t : Time12} (hv : t.valid) :
    splitCh ' ' t.render = [t.timePart, t.marker] := by
  have h1 : splitCh ' ' t.render = t.timePart :: splitCh ' ' t.marker :=
    splitCh_append_cons t.marker (space_not_mem_timePart hv)
  have h2 : splitCh ' ' t.marker = [t.marker] := by
    apply splitCh_of_not_mem
    unfold Time12.marker
    split <;> decide
  rw [h1, h2]

theorem splitCh_colon_timePart {t : Time12} (hv : t.valid) :
    splitCh ':' t.timePart = [pad2 t.h, pad2 t.m, pad2 t.s] := by
  obtain ⟨h1, h2, h3, h4⟩ := hv
  rw [Time12.timePart,
    splitCh_append_cons _ (colon_not_mem_pad2 t.h (by omega)),
    splitCh_append_cons _ (colon_not_mem_pad2 t.m (by omega)),
    splitCh_of_not_mem (colon_not_mem_pad2 t.s (by omega))]

theorem render_ne_nil (t : Time12) : t.render ≠ [] := by
  unfold Time12.render
  intro h
  exact List.cons_ne_nil _ _ (List.append_eq_nil.mp h).2

/-- For a valid reading, `getHoursFromTime` on the rendered string is the
24-hour clock hour. -/
theorem getHoursFromTime_render {t : Time12} (hv : t.valid) :
    getHoursFromTime (some t.render) = some (t.to24 : Int) := by
  obtain ⟨hh1, hh2, hm, hs⟩ := hv
  have hren : t.render ≠ [] := render_ne_nil t
  have hsplit : splitCh ' ' t.render = [t.timePart, t.marker] :=
    splitCh_space_render ⟨hh1, hh2, hm, hs⟩
  have hcolon : splitCh ':' t.timePart = [pad2 t.h, pad2 t.m, pad2 t.s] :=
    splitCh_colon_timePart ⟨hh1, hh2, hm, hs⟩
  have htp : t.timePart ≠ [] := by
    unfold Time12.timePart
    intro h
    exact pad2_ne_nil t.h (List.append_eq_nil.mp h).1
  have hmk : t.marker ≠ [] := by
    unfold Time12.marker; split <;> decide
  have hnum : jsNumber (pad2 t.h) = some (t.h : Int) :=
    jsNumber_pad2 t.h (by omega)
  simp only [getHoursFromTime, hsplit, if_neg hren]
  simp only [List.headI, List.get?, hcolon, hnum]
  have hne : ¬ (t.timePart = [] ∨ t.marker = []) := by
    simp [htp, hmk]
  rw [if_neg hne]
  by_cases hpm : t.pm
  · have hmark : t.marker = "PM".toList := by simp [Time12.marker, hpm]
    by_cases h12 : t.h = 12
    · simp [hmark, h12, Time12.to24, hpm]
    · have : (t.h : Int) ≠ 12 := by exact_mod_cast h12
      simp [hmark, this, Time12.to24, hpm, h12]
  · have hmark : t.marker = "AM".toList := by simp [Time12.marker, hpm]
    by_cases h12 : t.h = 12
    · simp [hmark, h12, Time12.to24, hpm]
    · have : (t.h : Int) ≠ 12 := by exact_mod_cast h12
      simp [hmark, this, Time12.to24, hpm, h12]

theorem to24_lt_24 {t : Time12} (hv : t.valid) : t.to24 < 24 := by
  obtain ⟨h1, h2, _, _⟩ := hv
  unfold Time12.to24
  split_ifs <;> omega

/-- For a valid reading, the punch-out override fires exactly when the
minute of day (seconds discarded) is strictly past 18:00 = minute 1080. -/
theorem applyPunchOutRule_render {t : Time12} (hv : t.valid) (st : String) :
    applyPunchOutRule t.render st =
      if 1080 < t.to24 * 60 + t.m then "Absent" else st := by
  obtain ⟨hh1, hh2, hm, hs⟩ := hv
  have hsplit := splitCh_space_render ⟨hh1, hh2, hm, hs⟩
  have hcolon := splitCh_colon_timePart ⟨hh1, hh2, hm, hs⟩
  have hhour := getHoursFromTime_render ⟨hh1, hh2, hm, hs⟩
  have hmin : jsNumber (pad2 t.m) = some (t.m : Int) :=
    jsNumber_pad2 t.m (by omega)
  have h24 : t.to24 < 24 := to24_lt_24 ⟨hh1, hh2, hm, hs⟩
  simp only [applyPunchOutRule, hsplit, List.headI, hcolon, List.get?,
    hhour, Option.bind, hmin]
  split_ifs with hA hB hB
  · rfl
  · exfalso
    simp only [jgt, Bool.or_eq_true, Bool.and_eq_true, decide_eq_true_eq,
      Option.some.injEq] at hA
    omega
  · exfalso
    apply hA
    simp only [jgt, Bool.or_eq_true, Bool.and_eq_true, decide_eq_true_eq,
      Option.some.injEq]
    omega
  · rfl


/-- C1 counterexample: `18:00:30` (rendered `"06:00:30 PM"`) is strictly
after 18:00:00 (second of day 64830 > 64800), yet `applyPunchOutRule`
keeps the punch-in-derived status `"Present"` instead of forcing
`"Absent"`: the rule reads only the hour and minute fields and ignores
seconds, so the claimed iff fails at times with nonzero seconds. -/
theorem applyPunchOutRule_contra_seconds :
    (Time12.mk 6 0 30 true).valid ∧
    (Time12.mk 6 0 30 true).render = "06:00:30 PM".toList ∧
    (Time12.mk 6 0 30 true).secs = 64830 ∧ 18 * 3600 < 64830 ∧
    applyPunchOutRule (Time12.mk 6 0 30 true).render "Present" = "Present" ∧
    "Present" ≠ "Absent" := by
  refine ⟨by decide, by decide, by decide, by decide, by decide, by decide⟩

/-- C1 (amended): for every valid punch-out reading `t` and every
punch-in-derived status, `applyPunchOutRule` forces the final status to
`"Absent"` iff the time truncated to minutes is strictly after 18:00
(minute of day > 1080); otherwise the status is retained.  Seconds are
ignored, so `18:00:30` retains the status while `18:01:00` forces
`"Absent"`. -/
theorem applyPunchOutRule_minute_rule (t : Time12) (hv : t.valid)
    (st : String) :
    applyPunchOutRule t.render st =
      if 1080 < t.to24 * 60 + t.m then "Absent" else st :=
  applyPunchOutRule_render hv st

/-- Witness for the amended C1 rule at `"06:01:00 PM"`. -/
theorem applyPunchOutRule_minute_rule_at_1801 :
    applyPunchOutRule (Time12.mk 6 1 0 true).render "Present" = "Absent" := by
  have h := applyPunchOutRule_minute_rule (Time12.mk 6 1 0 true)
    (by decide) "Present"
  rw [h]
  decide

/-- C3: for every valid punch-in time string (rendered from a 12-hour
reading), `calculateStatusFromPunchIn` is `"Present"` on [10:00, 11:00),
`"Late"` on [11:00, 14:00), `"Half Day"` on [14:00, 15:00) and
`"Absent"` otherwise — in particular the result is always one of the
four statuses and the window bounds fall on the stated
inclusive/exclusive sides (seconds of day: 36000, 39600, 50400, 54000). -/
theorem calculateStatusFromPunchIn_windows (t : Time12) (hv : t.valid) :
    calculateStatusFromPunchIn (some t.render) =
      if 36000 ≤ t.secs ∧ t.secs < 39600 then "Present"
      else if 39600 ≤ t.secs ∧ t.secs < 50400 then "Late"
      else if 50400 ≤ t.secs ∧ t.secs < 54000 then "Half Day"
      else "Absent" := by
  obtain ⟨hh1, hh2, hm, hs⟩ := hv
  have hhour := getHoursFromTime_render ⟨hh1, hh2, hm, hs⟩
  have h24 : t.to24 < 24 := to24_lt_24 ⟨hh1, hh2, hm, hs⟩
  simp only [calculateStatusFromPunchIn, hhour, jge, jlt, Time12.secs,
    Bool.and_eq_true, decide_eq_true_eq]
  split_ifs <;> first | rfl | (exfalso; omega)

/-- Witness for C3 at the boundary values 10:00:00, 11:00:00 (= 11 AM),
14:00:00 (= 02:00:00 PM) and 15:00:00 (= 03:00:00 PM). -/
theorem calculateStatusFromPunchIn_windows_boundaries :
    calculateStatusFromPunchIn (some (Time12.mk 10 0 0 false).render)
      = "Present" ∧
    calculateStatusFromPunchIn (some (Time12.mk 11 0 0 false).render)
      = "Late" ∧
    calculateStatusFromPunchIn (some (Time12.mk 2 0 0 true).render)
      = "Half Day" ∧
    calculateStatusFromPunchIn (some (Time12.mk 3 0 0 true).render)
      = "Absent" := by
  refine ⟨?_, ?_, ?_, ?_⟩
  · rw [calculateStatusFromPunchIn_windows (Time12.mk 10 0 0 false)
      (by decide)]
    decide
  · rw [calculateStatusFromPunchIn_windows (Time12.mk 11 0 0 false)
      (by decide)]
    decide
  · rw [calculateStatusFromPunchIn_windows (Time12.mk 2 0 0 true)
      (by decide)]
    decide
  · rw [calculateStatusFromPunchIn_windows (Time12.mk 3 0 0 true)
      (by decide)]
    decide

/-- C10: `calculateStatusFromPunchIn` is total on missing/empty/malformed
inputs: for `null`, the empty string, or any string that does not split
into a time part and an AM/PM marker, `getHoursFromTime` returns the
sentinel hour 25 and the derived status is `"Absent"`. -/
theorem calculateStatusFromPunchIn_total_on_malformed (ts : Option JStr)
    (h : ts = none ∨ ts = some [] ∨ ∃ s, ts = some s ∧ malformedTime s) :
    getHoursFromTime ts = some 25 ∧
    calculateStatusFromPunchIn ts = "Absent" := by
  have h25 : getHoursFromTime ts = some 25 := by
    rcases h with rfl | rfl | ⟨s, rfl, hm⟩
    · rfl
    · decide
    · by_cases hnil : s = []
      · subst hnil; decide
      · rcases hm with hm | hm | hm
        · simp only [getHoursFromTime, if_neg hnil]
          rcases hg : (splitCh ' ' s).get? 1 with _ | p
          · rfl
          · simp [hm]
        · simp only [getHoursFromTime, if_neg hnil, hm]
        · simp only [getHoursFromTime, if_neg hnil, hm]
          simp
  refine ⟨h25, ?_⟩
  simp [calculateStatusFromPunchIn, h25, jge, jlt]

/-- Witness for C10 at the malformed input `"garbage"` (no AM/PM
marker). -/
theorem calculateStatusFromPunchIn_total_on_malformed_at_garbage :
    getHoursFromTime (some "garbage".toList) = some 25 ∧
    calculateStatusFromPunchIn (some "garbage".toList) = "Absent" :=
  calculateStatusFromPunchIn_total_on_malformed (some "garbage".toList)
    (Or.inr (Or.inr ⟨"garbage".toList, rfl, by decide⟩))


theorem autoPunchOutCron_eq_map (date : String)
    (store : List AttendanceRecord) :
    autoPunchOutCron date store = store.map (fun r =>
      if r.date = date ∧ r.punch_out = none then autoPunchOutUpdate r
      else r) := rfl

/-- C4 counterexample: a manual-Absent record (punchIn null, punchOut
null) on the reconciled date is NOT left untouched — the cron query is
only `{ date, punch_out: null }` and does not require punchIn to be set,
so the record is mutated to an auto-punched-out record with
`workingDuration = "0h"` rather than an elapsed time from a punch-in. -/
theorem autoPunchOutCron_contra_touches_manual_absent :
    autoPunchOutCron "2025-01-01"
        [⟨"E1", "Alice", "2025-01-01", none, none, "Absent", none⟩] =
      [⟨"E1", "Alice", "2025-01-01", none, some autoPunchOutTime,
        "Auto Punch Out", some "0h"⟩] ∧
    autoPunchOutCron "2025-01-01"
        [⟨"E1", "Alice", "2025-01-01", none, none, "Absent", none⟩] ≠
      [⟨"E1", "Alice", "2025-01-01", none, none, "Absent", none⟩] := by
  refine ⟨by decide, by decide⟩

/-- C4 (amended): `ReconcileDay(date)` mutates exactly the records on
that date with `punchOut` null — whether or not `punchIn` is set (manual
Absent/Leave marks, which have `punchIn` null, are also swept) — and for
each such record sets `punchOut` to the fixed cutoff `"06:01:00 PM"`,
`workingDuration` to `calculateWorkingHours` from the record's `punchIn`
to that cutoff (`"0h"` when `punchIn` is null) and `status` to
`"Auto Punch Out"`; every other record is unchanged. -/
theorem autoPunchOutCron_effect (date : String)
    (store : List AttendanceRecord) :
    (autoPunchOutCron date store).length = store.length ∧
    (∀ r ∈ store, (r.date ≠ date ∨ r.punch_out ≠ none) →
      r ∈ autoPunchOutCron date store) ∧
    (∀ r ∈ store, r.date = date → r.punch_out = none →
      autoPunchOutUpdate r ∈ autoPunchOutCron date store) ∧
    (∀ r2 ∈ autoPunchOutCron date store,
      r2 ∈ store ∨ ∃ r ∈ store, r.date = date ∧ r.punch_out = none ∧
        r2 = autoPunchOutUpdate r) := by
  rw [autoPunchOutCron_eq_map]
  refine ⟨List.length_map _ _, ?_, ?_, ?_⟩
  · intro r hr hcond
    rw [List.mem_map]
    refine ⟨r, hr, ?_⟩
    rw [if_neg]
    rcases hcond with h | h <;> exact fun hc => h (by simp [hc.1, hc.2])
  · intro r hr hd hp
    rw [List.mem_map]
    exact ⟨r, hr, if_pos ⟨hd, hp⟩⟩
  · intro r2 hr2
    rw [List.mem_map] at hr2
    obtain ⟨r, hr, hfr⟩ := hr2
    by_cases hc : r.date = date ∧ r.punch_out = none
    · rw [if_pos hc] at hfr
      exact Or.inr ⟨r, hr, hc.1, hc.2, hfr.symm⟩
    · rw [if_neg hc] at hfr
      exact Or.inl (hfr ▸ hr)

/-- Witness for the amended C4 statement on a two-record store: the
already-punched-out record survives unchanged and the open record is
swept into its auto-punched-out form. -/
theorem autoPunchOutCron_effect_on_sample :
    (⟨"E2", "Bob", "2025-01-01", some "10:30:00 AM".toList,
        some "05:00:00 PM".toList, "Present", some "6h 30m"⟩ :
        AttendanceRecord) ∈
      autoPunchOutCron "2025-01-01"
        [⟨"E2", "Bob", "2025-01-01", some "10:30:00 AM".toList,
          some "05:00:00 PM".toList, "Present", some "6h 30m"⟩,
         ⟨"E3", "Cara", "2025-01-01", some "10:30:00 AM".toList, none,
          "Present", none⟩] ∧
    autoPunchOutUpdate ⟨"E3", "Cara", "2025-01-01",
        some "10:30:00 AM".toList, none, "Present", none⟩ ∈
      autoPunchOutCron "2025-01-01"
        [⟨"E2", "Bob", "2025-01-01", some "10:30:00 AM".toList,
          some "05:00:00 PM".toList, "Present", some "6h 30m"⟩,
         ⟨"E3", "Cara", "2025-01-01", some "10:30:00 AM".toList, none,
          "Present", none⟩] := by
  constructor
  · exact (autoPunchOutCron_effect "2025-01-01" _).2.1 _ (by decide)
      (Or.inr (by decide))
  · exact (autoPunchOutCron_effect "2025-01-01" _).2.2.1 _
      (by simp) rfl rfl

/-- C5: the reconciliation sweep is idempotent — running it twice for a
date equals running it once, and after one run no record on the date
still has `punchOut` null, so the second run matches zero records. -/
theorem autoPunchOutCron_idempotent (date : String)
    (store : List AttendanceRecord) :
    autoPunchOutCron date (autoPunchOutCron date store) =
      autoPunchOutCron date store ∧
    ∀ r ∈ autoPunchOutCron date store, r.date = date →
      r.punch_out ≠ none := by
  constructor
  · simp only [autoPunchOutCron_eq_map, List.map_map]
    apply List.map_congr_left
    intro r _
    by_cases hc : r.date = date ∧ r.punch_out = none
    · simp only [Function.comp_apply, if_pos hc]
      rw [if_neg (by simp [autoPunchOutUpdate])]
    · simp only [Function.comp_apply, if_neg hc, if_neg hc]
  · intro r hr hd
    rw [autoPunchOutCron_eq_map, List.mem_map] at hr
    obtain ⟨a, ha, hfa⟩ := hr
    by_cases hc : a.date = date ∧ a.punch_out = none
    · rw [if_pos hc] at hfa
      rw [← hfa]
      simp [autoPunchOutUpdate]
    · rw [if_neg hc] at hfa
      subst hfa
      intro hp
      exact hc ⟨hd, hp⟩

/-- Witness for C5 on a one-record store with an open session. -/
theorem autoPunchOutCron_idempotent_on_sample :
    (autoPunchOutUpdate ⟨"E3", "Cara", "2025-01-01",
        some "10:30:00 AM".toList, none, "Present", none⟩).punch_out ≠
      none := by
  have h := (autoPunchOutCron_idempotent "2025-01-01"
    [⟨"E3", "Cara", "2025-01-01", some "10:30:00 AM".toList, none,
      "Present", none⟩]).2
    (autoPunchOutUpdate ⟨"E3", "Cara", "2025-01-01",
      some "10:30:00 AM".toList, none, "Present", none⟩)
    (by simp [autoPunchOutCron, autoPunchOutUpdate]) rfl
  exact h


/-- C7 counterexample: punch-out with no record for (employee, today) and
punch-out on a record that already has `punchOut` set produce the SAME
404 "No active session found" response — there is no distinct Conflict
error for the already-punched-out case (the source guards both with one
`if (!record || record.punch_out)`). -/
theorem logoutAttendance_contra_same_error :
    (logoutAttendance "E1" "2025-01-01" "06:00:00 PM".toList []).1 =
      .error (404, "No active session found") ∧
    (logoutAttendance "E1" "2025-01-01" "06:00:00 PM".toList
        [⟨"E1", "Alice", "2025-01-01", some "10:30:00 AM".toList,
          some "05:00:00 PM".toList, "Present", some "6h 30m"⟩]).1 =
      .error (404, "No active session found") ∧
    (logoutAttendance "E1" "2025-01-01" "06:00:00 PM".toList
        [⟨"E1", "Alice", "2025-01-01", some "10:30:00 AM".toList,
          some "05:00:00 PM".toList, "Present", some "6h 30m"⟩]).2 =
      [⟨"E1", "Alice", "2025-01-01", some "10:30:00 AM".toList,
        some "05:00:00 PM".toList, "Present", some "6h 30m"⟩] := by
  refine ⟨by decide, by decide, by decide⟩

/-- C7 (amended): PunchOut fails with the SAME NotFound error
(404, "No active session found") both when no record exists for
(employeeId, today) and when the record exists but already has punchOut
set; in both failure cases the store is unmutated. -/
theorem logoutAttendance_failure_modes (eid today : String) (pout : JStr)
    (store : List AttendanceRecord) :
    (store.find? (fun r => r.employeeId == eid && r.date == today) = none →
      logoutAttendance eid today pout store =
        (.error (404, "No active session found"), store)) ∧
    (∀ r, store.find? (fun r => r.employeeId == eid && r.date == today)
        = some r → r.punch_out ≠ none →
      logoutAttendance eid today pout store =
        (.error (404, "No active session found"), store)) := by
  constructor
  · intro h
    simp only [logoutAttendance, h]
  · intro r h hp
    simp only [logoutAttendance, h, if_pos hp]

/-- Witness for the amended C7 statement: both failure modes on concrete
stores. -/
theorem logoutAttendance_failure_modes_on_sample :
    logoutAttendance "E1" "2025-01-01" "06:00:00 PM".toList [] =
      (.error (404, "No active session found"), []) ∧
    logoutAttendance "E1" "2025-01-01" "06:00:00 PM".toList
        [⟨"E1", "Alice", "2025-01-01", some "10:30:00 AM".toList,
          some "05:00:00 PM".toList, "Present", some "6h 30m"⟩] =
      (.error (404, "No active session found"),
       [⟨"E1", "Alice", "2025-01-01", some "10:30:00 AM".toList,
         some "05:00:00 PM".toList, "Present", some "6h 30m"⟩]) := by
  constructor
  · exact (logoutAttendance_failure_modes "E1" "2025-01-01"
      "06:00:00 PM".toList []).1 rfl
  · exact (logoutAttendance_failure_modes "E1" "2025-01-01"
      "06:00:00 PM".toList
      [⟨"E1", "Alice", "2025-01-01", some "10:30:00 AM".toList,
        some "05:00:00 PM".toList, "Present", some "6h 30m"⟩]).2
      ⟨"E1", "Alice", "2025-01-01", some "10:30:00 AM".toList,
        some "05:00:00 PM".toList, "Present", some "6h 30m"⟩
      (by decide) (by decide)

/-- C2 counterexample: accepting a freshly created task succeeds but
leaves `status = "In Progress"` while `progressStatus = "Pending"` — the
two mirrored fields are NOT identical after Accept. -/
theorem acceptTask_contra_mirror :
    acceptTask "a1"
        (some ⟨1, "T", "", ["a1"], "Not Started", "Not Started", "",
          "c1", ["c1"]⟩) =
      .ok ⟨1, "T", "", ["a1"], "In Progress", "Pending", "",
        "c1", ["c1"]⟩ ∧
    ("In Progress" : String) ≠ "Pending" := by
  refine ⟨by decide, by decide⟩

/-- C2 (amended): `status` and `progressStatus` are identical after
Create (both default to `"Not Started"`), after SubmitForReview (both
`"In Review"`) and after Review approve/revert (both `"Completed"` /
`"Reverted"`); Accept however sets `status = "In Progress"` while
`progressStatus = "Pending"`, so the invariant fails exactly at the
Accept step. -/
theorem statusMirror_per_operation :
    (∀ uid role tid ti de asg rev no t,
      addTask uid role tid ti de asg rev no = .ok t →
        t.status = t.progressStatus) ∧
    (∀ uid t t2, submitTaskForReview uid t = .ok t2 →
        t2.status = t2.progressStatus) ∧
    (∀ uid role un act c t t2, reviewTask uid role un act c t = .ok t2 →
        t2.status = t2.progressStatus) ∧
    (∀ uid t t2, acceptTask uid t = .ok t2 →
        t2.status = "In Progress" ∧ t2.progressStatus = "Pending") := by
  refine ⟨?_, ?_, ?_, ?_⟩
  · intro uid role tid ti de asg rev no t h
    unfold addTask at h
    split_ifs at h
    injection h with h
    subst h
    rfl
  · intro uid t t2 h
    match t with
    | none => exact absurd h (by simp [submitTaskForReview])
    | some tk =>
      unfold submitTaskForReview at h
      dsimp only at h
      split_ifs at h
      injection h with h
      subst h
      rfl
  · intro uid role un act c t t2 h
    unfold reviewTask at h
    split_ifs at h <;> first
      | (injection h with h; subst h; rfl)
      | (match t with
         | none => exact absurd h (by simp)
         | some tk =>
           simp only at h
           split_ifs at h <;> (injection h with h; subst h; rfl))
  · intro uid t t2 h
    match t with
    | none => exact absurd h (by simp [acceptTask])
    | some tk =>
      unfold acceptTask at h
      dsimp only at h
      split_ifs at h
      injection h with h
      subst h
      exact ⟨rfl, rfl⟩

/-- Witness for the amended C2 statement: a concrete submit-for-review
run yields equal mirrored fields, and a concrete accept run yields the
diverging pair. -/
theorem statusMirror_per_operation_on_sample :
    (⟨1, "T", "", ["a1"], "In Review", "In Review", "", "c1", ["c1"]⟩ :
      TaskDoc).status =
      (⟨1, "T", "", ["a1"], "In Review", "In Review", "", "c1", ["c1"]⟩ :
        TaskDoc).progressStatus ∧
    (⟨1, "T", "", ["a1"], "In Progress", "Pending", "", "c1", ["c1"]⟩ :
        TaskDoc).status = "In Progress" ∧
    (⟨1, "T", "", ["a1"], "In Progress", "Pending", "", "c1", ["c1"]⟩ :
        TaskDoc).progressStatus = "Pending" := by
  constructor
  · exact statusMirror_per_operation.2.1 "a1"
      (some ⟨1, "T", "", ["a1"], "In Progress", "Pending", "", "c1",
        ["c1"]⟩) _ (by decide)
  · exact statusMirror_per_operation.2.2.2 "a1"
      (some ⟨1, "T", "", ["a1"], "Not Started", "Not Started", "", "c1",
        ["c1"]⟩) _ (by decide)

/-- C6 counterexample: the task's creator, calling with role
`"employee"`, fails with Forbidden on a task in review — `reviewTask`
gates on role admin/manager before ever checking creator/reviewer
membership, so resolution does NOT succeed "regardless of role". -/
theorem reviewTask_contra_role_gate :
    (⟨1, "T", "", ["a1"], "In Review", "In Review", "", "c1", ["c1"]⟩ :
        TaskDoc).createdBy = "c1" ∧
    reviewTask "c1" "employee" "Carol" "approve" ""
        (some ⟨1, "T", "", ["a1"], "In Review", "In Review", "", "c1",
          ["c1"]⟩) =
      .error (403, "Not authorized to review tasks") := by
  refine ⟨by decide, by decide⟩

/-- C6 (amended): for a task with status `"In Review"`, a caller whose
role (lower-cased) is admin or manager and who is the creator or a
reviewer can resolve the review with approve or revert; a caller whose
role is not admin/manager fails with Forbidden even if creator/reviewer;
an admin/manager caller who is neither creator nor reviewer also fails
with Forbidden (a distinct message). -/
theorem reviewTask_authorization (uid role uname action comment : String)
    (t : TaskDoc) (hst : t.status = "In Review") :
    (¬ (jsToLower role = "admin" ∨ jsToLower role = "manager") →
      reviewTask uid role uname action comment (some t) =
        .error (403, "Not authorized to review tasks")) ∧
    ((jsToLower role = "admin" ∨ jsToLower role = "manager") →
      (t.createdBy = uid ∨ uid ∈ t.reviewers) →
      (action = "approve" ∨ action = "revert") →
      ∃ t2, reviewTask uid role uname action comment (some t) = .ok t2) ∧
    ((jsToLower role = "admin" ∨ jsToLower role = "manager") →
      ¬ (t.createdBy = uid ∨ uid ∈ t.reviewers) →
      reviewTask uid role uname action comment (some t) =
        .error (403, "You are not authorized to review this task")) := by
  refine ⟨?_, ?_, ?_⟩
  · intro hrole
    unfold reviewTask
    rw [if_pos hrole]
  · intro hrole hauth hact
    unfold reviewTask
    rw [if_neg (not_not_intro hrole)]
    dsimp only
    rw [if_neg (by simp [hst])]
    have hmem : ¬ (¬ t.createdBy = uid ∧
        ¬ (t.reviewers.any fun r => decide (r = uid)) = true) := by
      simp only [List.any_eq_true, decide_eq_true_eq]
      rcases hauth with h | h
      · exact fun hc => hc.1 h
      · exact fun hc => hc.2 ⟨uid, h, rfl⟩
    rw [if_neg hmem]
    rcases hact with rfl | rfl
    · exact ⟨_, if_pos rfl⟩
    · exact ⟨_, (if_neg (by decide)).trans (if_pos rfl)⟩
  · intro hrole hauth
    unfold reviewTask
    rw [if_neg (not_not_intro hrole)]
    dsimp only
    rw [if_neg (by simp [hst])]
    rw [if_pos]
    push_neg at hauth
    refine ⟨hauth.1, ?_⟩
    simp only [List.any_eq_true, decide_eq_true_eq]
    rintro ⟨r, hr, rfl⟩
    exact hauth.2 hr

/-- Witness for the amended C6 statement: a manager-role reviewer (not
the creator) approves successfully; an admin who is neither creator nor
reviewer is rejected. -/
theorem reviewTask_authorization_on_sample :
    (∃ t2, reviewTask "r9" "manager" "Rita" "approve" ""
        (some ⟨1, "T", "", ["a1"], "In Review", "In Review", "", "c1",
          ["c1", "r9"]⟩) = .ok t2) ∧
    reviewTask "x7" "admin" "Xan" "approve" ""
        (some ⟨1, "T", "", ["a1"], "In Review", "In Review", "", "c1",
          ["c1", "r9"]⟩) =
      .error (403, "You are not authorized to review this task") := by
  constructor
  · exact (reviewTask_authorization "r9" "manager" "Rita" "approve" ""
      ⟨1, "T", "", ["a1"], "In Review", "In Review", "", "c1",
        ["c1", "r9"]⟩ rfl).2.1 (by right; decide)
      (by right; decide) (by left; rfl)
  · exact (reviewTask_authorization "x7" "admin" "Xan" "approve" ""
      ⟨1, "T", "", ["a1"], "In Review", "In Review", "", "c1",
        ["c1", "r9"]⟩ rfl).2.2 (by left; decide) (by decide)


/-- C8: `notifyManyUsers` silently filters out every invalid receiver id,
errors with "No valid receiverIds provided" iff the filtered set is
empty, and otherwise persists exactly one independent document per valid
id, each carrying its own receiverId (the documents' receiver ids are
exactly the filtered ids, in order). -/
theorem notifyManyUsers_fanout (isValidId : String → Bool)
    (ids : List String) (sid : Option String)
    (ti me ty pr li : String) :
    (notifyManyUsers isValidId ids sid ti me ty pr li =
        .error "No valid receiverIds provided" ↔ ids.filter isValidId = []) ∧
    (ids.filter isValidId ≠ [] → ∃ docs,
      notifyManyUsers isValidId ids sid ti me ty pr li = .ok docs) ∧
    (∀ docs, notifyManyUsers isValidId ids sid ti me ty pr li = .ok docs →
      docs.length = (ids.filter isValidId).length ∧
      docs.map (fun d => d.receiverId) = ids.filter isValidId) := by
  by_cases hv : ids.filter isValidId = []
  · refine ⟨by simp [notifyManyUsers, hv], fun hc => absurd hv hc, ?_⟩
    intro docs h
    rw [notifyManyUsers, if_pos hv] at h
    cases h
  · refine ⟨?_, ?_, ?_⟩
    · rw [notifyManyUsers, if_neg hv]
      simp [hv]
    · intro _
      exact ⟨_, by rw [notifyManyUsers, if_neg hv]⟩
    · intro docs h
      rw [notifyManyUsers, if_neg hv] at h
      injection h with h
      subst h
      constructor
      · rw [List.length_map]
      · rw [List.map_map]
        have h2 : List.map ((fun (d : NotifDoc) => d.receiverId) ∘
            (fun rid => ({ receiverId := rid, senderId := sid, title := ti,
                           message := me, type := ty, priority := pr,
                           link := li } : NotifDoc)))
            (List.filter isValidId ids) =
            List.map id (List.filter isValidId ids) :=
          List.map_congr_left (fun a _ => rfl)
        rw [h2, List.map_id]

/-- Witness for C8 on the claim's mixed list [validId, invalidId]:
exactly one document is persisted and the call succeeds. -/
theorem notifyManyUsers_fanout_on_sample :
    notifyManyUsers (fun s => s != "bad") ["u1", "bad"] none "t" "m" "g"
        "n" "l" = .ok [⟨"u1", none, "t", "m", "g", "n", "l"⟩] ∧
    ([⟨"u1", none, "t", "m", "g", "n", "l"⟩] : List NotifDoc).length =
      (["u1", "bad"].filter (fun s => s != "bad")).length := by
  have h := (notifyManyUsers_fanout (fun s => s != "bad") ["u1", "bad"]
      none "t" "m" "g" "n" "l").2.2
    [⟨"u1", none, "t", "m", "g", "n", "l"⟩] (by decide)
  exact ⟨by decide, h.1⟩

/-- C9 counterexample: on a store holding one already-soft-deleted
notification owned by the receiver, a second SoftDelete SUCCEEDS (its
query {_id, receiverId} has no isDeleted clause), while MarkRead on the
same store fails with 404 NotFound — so the two operations do NOT share
the same ownership condition and re-deletion does not fail. -/
theorem deleteNotification_contra_redelete :
    (deleteNotification "u1" "n1"
        [⟨"n1", "u1", false, none, true⟩]).1 =
      .ok ⟨"n1", "u1", false, none, true⟩ ∧
    (markAsRead (fun _ => true) "u1" "n1" 0
        [⟨"n1", "u1", false, none, true⟩]).1 =
      .error (404, "Notification not found") := by
  refine ⟨by decide, by decide⟩

/-- C9 (amended): MarkRead succeeds exactly when a non-deleted record
with the given id owned by the receiver exists (given a well-formed id),
but SoftDelete succeeds exactly when ANY record with that id owned by
the receiver exists, deleted or not: its query omits the
`isDeleted: false` clause, so a second SoftDelete of an already
soft-deleted notification succeeds while MarkRead on it fails with
NotFound. -/
theorem markRead_delete_conditions (v : String → Bool) (rid nid : String)
    (now : Nat) (store : List StoredNotif) :
    ((∃ n ∈ store, n.id = nid ∧ n.receiverId = rid) ↔
      isOkE (deleteNotification rid nid store).1 = true) ∧
    (¬ (∃ n ∈ store, n.id = nid ∧ n.receiverId = rid) →
      deleteNotification rid nid store =
        (.error (404, "Notification not found"), store)) ∧
    (v nid = true →
      ((∃ n ∈ store, n.id = nid ∧ n.receiverId = rid ∧ n.isDeleted = false)
        ↔ isOkE (markAsRead v rid nid now store).1 = true)) ∧
    (v nid = true →
      ¬ (∃ n ∈ store, n.id = nid ∧ n.receiverId = rid ∧
          n.isDeleted = false) →
      markAsRead v rid nid now store =
        (.error (404, "Notification not found"), store)) := by
  have hdel : (∃ n ∈ store, n.id = nid ∧ n.receiverId = rid) ↔
      (store.find? (fun n => n.id == nid && n.receiverId == rid)).isSome
        = true := by
    rw [List.find?_isSome]
    constructor
    · rintro ⟨n, hn, h1, h2⟩
      exact ⟨n, hn, by simp [h1, h2]⟩
    · rintro ⟨n, hn, hb⟩
      simp only [Bool.and_eq_true, beq_iff_eq] at hb
      exact ⟨n, hn, hb.1, hb.2⟩
  have hmr : (∃ n ∈ store, n.id = nid ∧ n.receiverId = rid ∧
      n.isDeleted = false) ↔
      (store.find? (fun n => n.id == nid && n.receiverId == rid &&
        !n.isDeleted)).isSome = true := by
    rw [List.find?_isSome]
    constructor
    · rintro ⟨n, hn, h1, h2, h3⟩
      exact ⟨n, hn, by simp [h1, h2, h3]⟩
    · rintro ⟨n, hn, hb⟩
      simp only [Bool.and_eq_true, beq_iff_eq, Bool.not_eq_true'] at hb
      exact ⟨n, hn, hb.1.1, hb.1.2, hb.2⟩
  refine ⟨?_, ?_, ?_, ?_⟩
  · rw [hdel]
    unfold deleteNotification
    cases hf : store.find? (fun n => n.id == nid && n.receiverId == rid)
      with
    | none => simp [hf, isOkE]
    | some n => simp [hf, isOkE]
  · intro hne
    rw [hdel] at hne
    unfold deleteNotification
    cases hf : store.find? (fun n => n.id == nid && n.receiverId == rid)
      with
    | none => simp [hf]
    | some n => exact absurd (by rw [hf]; rfl) hne
  · intro hv
    rw [hmr]
    unfold markAsRead
    rw [if_neg (by simp [hv])]
    cases hf : store.find? (fun n => n.id == nid && n.receiverId == rid &&
        !n.isDeleted) with
    | none => simp [hf, isOkE]
    | some n => simp [hf, isOkE]
  · intro hv hne
    rw [hmr] at hne
    unfold markAsRead
    rw [if_neg (by simp [hv])]
    cases hf : store.find? (fun n => n.id == nid && n.receiverId == rid &&
        !n.isDeleted) with
    | none => simp [hf]
    | some n => exact absurd (by rw [hf]; rfl) hne

/-- Witness for the amended C9 statement on the one-record soft-deleted
store: SoftDelete succeeds, MarkRead fails 404. -/
theorem markRead_delete_conditions_on_sample :
    isOkE (deleteNotification "u1" "n1"
        [⟨"n1", "u1", false, none, true⟩]).1 = true ∧
    markAsRead (fun _ => true) "u1" "n1" 0
        [⟨"n1", "u1", false, none, true⟩] =
      (.error (404, "Notification not found"),
       [⟨"n1", "u1", false, none, true⟩]) := by
  constructor
  · exact (markRead_delete_conditions (fun _ => true) "u1" "n1" 0
      [⟨"n1", "u1", false, none, true⟩]).1.mp
      ⟨⟨"n1", "u1", false, none, true⟩, by simp, rfl, rfl⟩
  · exact (markRead_delete_conditions (fun _ => true) "u1" "n1" 0
      [⟨"n1", "u1", false, none, true⟩]).2.2.2 rfl (by decide)
